import Mathlib

/-!
Shallow embedding of `django_cube/cube.py` (the `Cube`, `Dimension` and
`Measure` classes) and proofs about its slicing, iteration, measure
computation and display operations.

Conventions of the embedding:
* Python dicts with string keys are association lists `List (String × V)`;
  dict assignment `d[k] = v` is `dictSet`, dict lookup is `List.lookup`.
  Python dict equality is extensional (key-by-key), which we express through
  `List.lookup`.
* A Python call that may raise is a Lean function into `Except PyErr _`.
* A generator, once fully consumed, is the list of values it yielded paired
  with the error it raised instead of terminating normally, if any
  (`List _ × Option PyErr`).
* `copy.deepcopy` of a value is the value itself (value semantics).
* Dynamic dispatch to subclass hooks (`get_sample_space`, `sort_key`) is
  modelled by function-valued fields carried on the cube record; the base
  class behaviour (hook missing / raising `NotImplementedError`) is one
  possible value of those fields.
-/

/-- Errors raised by the code under `src/django_cube/cube.py`.
`invalidDimension n` stands for Python `ValueError('invalid dimension %s' % n)`. -/
inductive PyErr : Type where
  | invalidDimension (dim_name : String)
  | typeError (msg : String)
  | notImplementedError (msg : String)
  | attributeError (msg : String)
  deriving DecidableEq, Repr

/-- Python dict assignment `d[k] = v`: replace the value at `k` when the key is
present, append the new pair otherwise. -/
def dictSet {V : Type} (m : List (String × V)) (k : String) (v : V) : List (String × V) :=
  if k ∈ m.map Prod.fst then
    m.map (fun p => if p.1 = k then (k, v) else p)
  else
    m ++ [(k, v)]

/-- Python dict lookup `d[k]` (as a partial map): the value stored at the
first pair whose key is `k`, if any. -/
def dictGet {V : Type} : List (String × V) → String → Option V
  | [], _ => none
  | p :: rest, k => if p.1 = k then some p.2 else dictGet rest k

/-- A `Dimension` (cube.py line 12): only its `name` matters to the `Cube`
algorithms under study; `sample_space` is the constructor argument. -/
structure Dimension (V : Type) : Type where
  _name : String
  sample_space : List V

/-- The `name` property of a dimension (cube.py line 25). -/
def Dimension.name {V : Type} (d : Dimension V) : String :=
  d._name

/-- A cube (cube.py line 61).  `V` is the type of constraint values, `M` the
type of measure objects.  `get_sample_space` and `sort_key` model the
subclass-provided hooks that `iter_slices` dispatches to dynamically:
the base class leaves `get_sample_space` raising `NotImplementedError`
(line 119) and defines no `sort_key` attribute at all (`sort_key = none`
models the absent attribute, whose lookup raises `AttributeError`). -/
structure Cube (V M : Type) : Type where
  measures : List M
  dimensions : List (Dimension V)
  _constraint : List (String × V)
  get_sample_space : List String → Except PyErr (List (List (String × V)))
  sort_key : Option (List (String × V) → Except PyErr Int)

/-- `Cube.__init__` (cube.py line 63): stores measures and dimensions and
starts with an empty constraint.  The two hook arguments model the methods
the concrete subclass contributes. -/
def Cube.init {V M : Type} (measures : List M) (dimensions : List (Dimension V))
    (gss : List String → Except PyErr (List (List (String × V))))
    (sk : Option (List (String × V) → Except PyErr Int)) : Cube V M :=
  { measures := measures
    dimensions := dimensions
    _constraint := []
    get_sample_space := gss
    sort_key := sk }

/-- The `dim_names` property (cube.py line 122). -/
def Cube.dim_names {V M : Type} (c : Cube V M) : List String :=
  c.dimensions.map Dimension.name

/-- `Cube._check_dim_names` (cube.py line 126): raise
`ValueError('invalid dimension %s')` at the first name that is not a declared
dimension name. -/
def Cube.check_dim_names {V M : Type} (c : Cube V M) : List String → Except PyErr Unit
  | [] => Except.ok ()
  | n :: rest =>
    if n ∈ c.dim_names then c.check_dim_names rest
    else Except.error (PyErr.invalidDimension n)

/-- `Cube._check_constraint` (cube.py line 134): check the constraint keys. -/
def Cube.check_constraint {V M : Type} (c : Cube V M) (constraint : List (String × V)) :
    Except PyErr Unit :=
  c.check_dim_names (constraint.map Prod.fst)

/-- `Cube.slice` (cube.py line 68): validate `extra_constraint`, deep-copy the
cube, then write each extra pair into the copy's constraint dict. -/
def Cube.slice {V M : Type} (c : Cube V M) (extra_constraint : List (String × V)) :
    Except PyErr (Cube V M) := do
  c.check_constraint extra_constraint
  let cube_copy := c
  Except.ok { cube_copy with
    _constraint := extra_constraint.foldl (fun m kv => dictSet m kv.1 kv.2) cube_copy._constraint }

/-- Models a call `self._is_constrained(dim_name)` (cube.py line 140).
The method is declared as `def _is_constrained(dim_name)` with no `self`
parameter, so the bound method has arity zero and every call through
`self._is_constrained(x)` raises
`TypeError: _is_constrained() takes exactly 1 argument (2 given)`. -/
def Cube.call_is_constrained {V M : Type} (_ : Cube V M) (_ : String) : Except PyErr Bool :=
  Except.error (PyErr.typeError "_is_constrained() takes exactly 1 argument (2 given)")

/-- Python 2 `filter(f, xs)` with a predicate that may raise: the predicate is
applied to the elements in order, the first exception propagates, and an empty
input never invokes the predicate. -/
def filterExc {A : Type} (f : A → Except PyErr Bool) : List A → Except PyErr (List A)
  | [] => Except.ok []
  | x :: xs => do
    let b ← f x
    let rest ← filterExc f xs
    Except.ok (if b then x :: rest else rest)

/-- Python 2 `sorted(xs, key=f)`: the key function is applied to every element
first (first exception propagates), then a stable sort by the computed keys. -/
def pySortedByKey {A : Type} (f : A → Except PyErr Int) (xs : List A) :
    Except PyErr (List A) := do
  let keyed ← xs.mapM (fun x => do
    let k ← f x
    Except.ok (k, x))
  Except.ok ((keyed.insertionSort (fun p q => p.1 ≤ q.1)).map Prod.snd)

/-- The `try: sample_space = sorted(sample_space, key=self.sort_key) except
NotImplementedError: pass` block of `iter_slices` (cube.py lines 103-106).
When the cube has no `sort_key` attribute its lookup raises `AttributeError`,
which the `except` clause does not catch; a `sort_key` that raises
`NotImplementedError` is caught and the sample space is left in source order;
any other error from the key propagates. -/
def pySortStep {V M : Type} (c : Cube V M) (sample_space : List (List (String × V))) :
    Except PyErr (List (List (String × V))) :=
  match c.sort_key with
  | none => Except.error (PyErr.attributeError "Cube instance has no attribute sort_key")
  | some f =>
    match pySortedByKey f sample_space with
    | Except.error (PyErr.notImplementedError _) => Except.ok sample_space
    | Except.error e => Except.error e
    | Except.ok sorted_space => Except.ok sorted_space

/-- The yield loop of `iter_slices` (cube.py lines 109-110): one `slice` per
sample-space entry; an error raised by `slice` ends the generator after the
values already yielded. -/
def Cube.yield_slices {V M : Type} (c : Cube V M) :
    List (List (String × V)) → List (Cube V M) × Option PyErr
  | [] => ([], none)
  | v :: rest =>
    match c.slice v with
    | Except.error e => ([], some e)
    | Except.ok s =>
      let (ys, err) := c.yield_slices rest
      (s :: ys, err)

/-- `Cube.iter_slices` (cube.py line 85), as the sequence a consumer of the
generator observes: the cubes yielded, paired with the error that ended the
iteration, if any.  Mirrors the source line by line: validate the names,
compute `free_dim_names = filter(self._is_constrained, dim_names)` (which
raises `TypeError` as soon as the filter applies the self-less
`_is_constrained`, hence for every non-empty `dim_names`), short-circuit with
one deep copy when `free_dim_names` is empty, otherwise fetch and sort the
sample space and yield one slice per entry. -/
def Cube.iter_slices {V M : Type} (c : Cube V M) (dim_names : List String) :
    List (Cube V M) × Option PyErr :=
  match c.check_dim_names dim_names with
  | Except.error e => ([], some e)
  | Except.ok _ =>
    match filterExc c.call_is_constrained dim_names with
    | Except.error e => ([], some e)
    | Except.ok free_dim_names =>
      if free_dim_names.isEmpty then
        ([c], none)
      else
        match c.get_sample_space free_dim_names with
        | Except.error e => ([], some e)
        | Except.ok sample_space =>
          match pySortStep c sample_space with
          | Except.error e => ([], some e)
          | Except.ok sorted_space => c.yield_slices sorted_space

/-- `Cube.compute` (cube.py line 113): apply each measure to the calling cube,
in declared order.  `computeM` is the dynamic dispatch of `measure.compute`. -/
def Cube.compute {V M R : Type} (c : Cube V M) (computeM : M → Cube V M → R) : List R :=
  c.measures.map (fun m => computeM m c)

/-- Python `==` between a `str` and a `Dimension` instance: `Dimension` defines
no `__eq__`, so the comparison falls back to identity and is always `False`. -/
def pyEqStrDim {V : Type} (_ : String) (_ : Dimension V) : Bool :=
  false

/-- `Cube._pop_first_dim` (cube.py line 146).  The loop tests
`dim_name not in self.dimensions` — membership of a string in the list of
`Dimension` objects, which is never true — so the first name always raises
`ValueError('invalid dimension %s')`; with `free_only` the loop would read the
non-existent attribute `self.constraint` and raise `AttributeError`.  On an
empty list the loop body never runs and `None` is returned with the list
unchanged.  The result pairs the popped name (if any) with the remaining
list. -/
def Cube.pop_first_dim {V M : Type} (c : Cube V M) (dim_names : List String)
    (free_only : Bool) : Except PyErr (Option String × List String) :=
  match dim_names with
  | [] => Except.ok (none, [])
  | dim_name :: rest =>
    if !(c.dimensions.any (fun d => pyEqStrDim dim_name d)) then
      Except.error (PyErr.invalidDimension dim_name)
    else if free_only then
      Except.error (PyErr.attributeError "Cube instance has no attribute constraint")
    else
      Except.ok (some dim_name, rest)

/-- Models a call `self.measure()`: no method or attribute `measure` is defined
anywhere on `Cube`, so the attribute lookup raises `AttributeError`. -/
def Cube.measure {V M R : Type} (_ : Cube V M) : Except PyErr R :=
  Except.error (PyErr.attributeError "Cube instance has no attribute measure")

/-- The nested-list values `measures_list` builds: measure results at the
leaves, lists at the nodes. -/
inductive MeasTree (R : Type) : Type where
  | leaf (r : R)
  | node (xs : List (MeasTree R))

/-- When `_pop_first_dim` returns normally the input list was empty: on any
non-empty list the (mis-typed) membership test fails at the first name and the
call raises. -/
lemma pop_first_dim_eq_ok {V M : Type} (c : Cube V M) (names : List String) (fo : Bool)
    (p : Option String) (rest : List String)
    (h : c.pop_first_dim names fo = Except.ok (p, rest)) :
    names = [] ∧ p = none ∧ rest = [] := by
  cases names with
  | nil =>
    simp only [Cube.pop_first_dim, Except.ok.injEq, Prod.mk.injEq] at h
    exact ⟨rfl, h.1.symm, h.2.symm⟩
  | cons hd tl => simp [Cube.pop_first_dim, pyEqStrDim] at h

set_option linter.unusedVariables false in
/-- `Cube.measures_list` (cube.py line 197): pop the first dimension name via
`_pop_first_dim`; when names remain, recurse over the slices of the popped
name; when the popped name was the last, collect `slc.measure()` over its
slices; with no names at all return the empty list. -/
def Cube.measures_list {V M R : Type} (c : Cube V M) (dim_names : List String) :
    Except PyErr (MeasTree R) :=
  match h : c.pop_first_dim dim_names false with
  | Except.error e => Except.error e
  | Except.ok (next_dim_name, rest) =>
    if hr : rest.isEmpty then
      match next_dim_name with
      | some d =>
        let (slices, err) := c.iter_slices [d]
        match slices.mapM (fun slc => (Cube.measure slc : Except PyErr R)) with
        | Except.error e => Except.error e
        | Except.ok rs =>
          match err with
          | some e => Except.error e
          | none => Except.ok (MeasTree.node (rs.map MeasTree.leaf))
      | none => Except.ok (MeasTree.node [])
    else
      match next_dim_name with
      | some d =>
        let (slices, err) := c.iter_slices [d]
        match slices.mapM (fun slc => (Cube.measures_list slc rest : Except PyErr (MeasTree R))) with
        | Except.error e => Except.error e
        | Except.ok subs =>
          match err with
          | some e => Except.error e
          | none => Except.ok (MeasTree.node subs)
      | none => Except.ok (MeasTree.node [])
  termination_by dim_names.length
  decreasing_by
    exact absurd (List.isEmpty_iff.mpr (pop_first_dim_eq_ok c dim_names false
      (some d) rest h).2.2) hr

/-- Lexicographic comparison of character sequences by code point, the order
Python uses to compare `str` values. -/
def lexLeChars : List Char → List Char → Bool
  | [], _ => true
  | _ :: _, [] => false
  | a :: as, b :: bs =>
    if a < b then true
    else if b < a then false
    else lexLeChars as bs

/-- Python `s1 <= s2` on strings. -/
def pyStrLe (a b : String) : Bool :=
  lexLeChars a.data b.data

/-- String sorting as Python `sorted` performs it on `str` values:
lexicographic by code point, stable. -/
def sortStrings (xs : List String) : List String :=
  xs.insertionSort (fun a b => pyStrLe a b = true)

/-- `Cube.__repr__` (cube.py line 166): sorted `name=value` strings for the
constrained entries, sorted set-difference for the free names, joined as
`Cube(free..., constrained...)`.  `toStr` stands for Python's `%s` conversion
of a constraint value. -/
def Cube.repr {V M : Type} (c : Cube V M) (toStr : V → String) : String :=
  let constr_dimensions :=
    sortStrings (c._constraint.map (fun p => p.1 ++ "=" ++ toStr p.2))
  let free_dimensions :=
    sortStrings ((c.dim_names.filter (fun d => !decide (d ∈ c._constraint.map Prod.fst))).dedup)
  "Cube(" ++ String.intercalate ", " (free_dimensions ++ constr_dimensions) ++ ")"

/-- Classifies the `ValueError('invalid dimension ...')` raises among the
errors of the embedding. -/
def PyErr.isInvalidDim : PyErr → Bool
  | PyErr.invalidDimension _ => true
  | _ => false

/-- The cubes obtainable from `root` by a sequence of successful `slice`
calls. -/
inductive SliceReachable {V M : Type} (root : Cube V M) : Cube V M → Prop where
  | refl : SliceReachable root root
  | step {c c' : Cube V M} {E : List (String × V)} :
      SliceReachable root c → c.slice E = Except.ok c' → SliceReachable root c'

/-! Concrete cubes used to instantiate the theorems below on closed inputs. -/

/-- A sample-space hook returning no entries. -/
def gssEmpty : List String → Except PyErr (List (List (String × Nat))) :=
  fun _ => Except.ok []

/-- A sample-space hook enumerating the values 1 and 2 for dimension `a`. -/
def gssA12 : List String → Except PyErr (List (List (String × Nat))) :=
  fun _ => Except.ok [[("a", 1)], [("a", 2)]]

/-- A sample-space hook enumerating 2 before 1 for dimension `a` (an order a
sort would change). -/
def gssA21 : List String → Except PyErr (List (List (String × Nat))) :=
  fun _ => Except.ok [[("a", 2)], [("a", 1)]]

/-- A freshly constructed cube with dimensions `a` and `b` and no measures. -/
def cubeAB : Cube Nat Unit :=
  Cube.init [] [⟨"a", []⟩, ⟨"b", []⟩] gssEmpty none

/-- The slice of `cubeAB` fixing `a` to 1. -/
def cubeAB_a1 : Cube Nat Unit :=
  { cubeAB with _constraint := [("a", 1)] }

/-- A cube with the single unconstrained dimension `a` and a two-entry sample
space. -/
def cubeFreeA : Cube Nat Unit :=
  { measures := []
    dimensions := [⟨"a", []⟩]
    _constraint := []
    get_sample_space := gssA12
    sort_key := none }

/-- A cube whose only dimension `a` is already constrained. -/
def cubeConA : Cube Nat Unit :=
  { cubeFreeA with _constraint := [("a", 1)] }

/-- A cube with unconstrained dimension `a`, no `sort_key`, and a sample space
supplied in the order 2, 1. -/
def cubeUnsorted : Cube Nat Unit :=
  { measures := []
    dimensions := [⟨"a", []⟩]
    _constraint := []
    get_sample_space := gssA21
    sort_key := none }

/-- A cube with dimensions `a`, `b`, `c` and constraint fixing `b` to 2. -/
def cubeABC_b2 : Cube Nat Unit :=
  { measures := []
    dimensions := [⟨"a", []⟩, ⟨"b", []⟩, ⟨"c", []⟩]
    _constraint := [("b", 2)]
    get_sample_space := gssEmpty
    sort_key := none }

/-! Helper lemmas about the dict model. -/

/-- A key is absent from a dict exactly when lookup returns `none`. -/
lemma dictGet_eq_none_iff {V : Type} (m : List (String × V)) (k : String) :
    dictGet m k = none ↔ k ∉ m.map Prod.fst := by
  induction m with
  | nil => simp [dictGet]
  | cons hd tl ih =>
    simp only [dictGet, List.map_cons, List.mem_cons]
    split_ifs with h
    · simp [h.symm]
    · rw [ih]
      constructor
      · rintro hk (rfl | hmem)
        · exact h rfl
        · exact hk hmem
      · intro hk hmem
        exact hk (Or.inr hmem)

/-- Lookup after the replace-in-place branch of `dictSet`. -/
lemma dictGet_map_set {V : Type} (m : List (String × V)) (k k' : String) (v : V) :
    dictGet (m.map (fun p => if p.1 = k then (k, v) else p)) k' =
      if k' = k then (if k ∈ m.map Prod.fst then some v else none) else dictGet m k' := by
  induction m with
  | nil => simp [dictGet]
  | cons hd tl ih =>
    simp only [List.map_cons, List.mem_cons]
    by_cases h1 : hd.1 = k
    · by_cases h2 : k' = k
      · subst h2
        simp [dictGet, h1]
      · have hkk' : ¬ k = k' := fun e => h2 e.symm
        simp [dictGet, h1, h2, ih, hkk']
    · by_cases h3 : hd.1 = k'
      · have h2 : ¬ k' = k := fun e => h1 (e ▸ h3)
        simp [dictGet, h1, h2, h3]
      · simp only [List.map_cons, dictGet, if_neg h1, if_neg h3, ih]
        by_cases h2 : k' = k
        · subst h2
          by_cases hm : k' ∈ List.map Prod.fst tl
          · simp [hm]
          · simp [hm, Ne.symm h1]
        · simp [h2]

/-- Lookup in the concatenation of two dicts. -/
lemma dictGet_append {V : Type} (m₁ m₂ : List (String × V)) (k : String) :
    dictGet (m₁ ++ m₂) k =
      match dictGet m₁ k with
      | some v => some v
      | none => dictGet m₂ k := by
  induction m₁ with
  | nil => simp [dictGet]
  | cons hd tl ih =>
    simp only [List.cons_append, dictGet]
    split_ifs with h
    · rfl
    · exact ih

/-- Lookup after a dict assignment: the assigned key now maps to the new
value, every other key is untouched. -/
lemma dictGet_dictSet {V : Type} (m : List (String × V)) (k k' : String) (v : V) :
    dictGet (dictSet m k v) k' = if k' = k then some v else dictGet m k' := by
  unfold dictSet
  by_cases hm : k ∈ m.map Prod.fst
  · rw [if_pos hm, dictGet_map_set, if_pos hm]
  · rw [if_neg hm, dictGet_append]
    have hnone : dictGet m k = none := (dictGet_eq_none_iff m k).mpr hm
    by_cases h2 : k' = k
    · subst h2
      simp [hnone, dictGet]
    · have hkk' : ¬ k = k' := fun e => h2 e.symm
      cases hdg : dictGet m k' with
      | none => simp [hdg, dictGet, h2, hkk']
      | some w => simp [hdg, h2]

/-- Dict assignment only ever adds the assigned key. -/
lemma keys_dictSet {V : Type} (m : List (String × V)) (k : String) (v : V) (k' : String)
    (h : k' ∈ (dictSet m k v).map Prod.fst) : k' ∈ m.map Prod.fst ∨ k' = k := by
  unfold dictSet at h
  split_ifs at h with hm
  · rcases List.mem_map.mp h with ⟨p, hp, hval⟩
    rcases List.mem_map.mp hp with ⟨q, hq, hqval⟩
    by_cases h1 : q.1 = k
    · right
      rw [if_pos h1] at hqval
      rw [← hqval] at hval
      exact hval.symm
    · left
      rw [if_neg h1] at hqval
      rw [← hqval] at hval
      exact hval ▸ List.mem_map.mpr ⟨q, hq, rfl⟩
  · rw [List.map_append] at h
    rcases List.mem_append.mp h with h' | h'
    · exact Or.inl h'
    · right
      simpa using h'

/-- Folding dict assignments over the pairs of `E` implements the dict merge:
keys of `E` take the values from `E`, the remaining keys keep their values
from the initial dict. -/
lemma dictGet_foldl_dictSet {V : Type} (E : List (String × V))
    (hnd : (E.map Prod.fst).Nodup) (m : List (String × V)) (k : String) :
    dictGet (E.foldl (fun acc kv => dictSet acc kv.1 kv.2) m) k =
      match dictGet E k with
      | some v => some v
      | none => dictGet m k := by
  induction E generalizing m with
  | nil => simp [dictGet]
  | cons hd tl ih =>
    simp only [List.map_cons, List.nodup_cons] at hnd
    simp only [List.foldl_cons]
    rw [ih hnd.2]
    by_cases hk : hd.1 = k
    · subst hk
      have htl : dictGet tl hd.1 = none :=
        (dictGet_eq_none_iff tl hd.1).mpr hnd.1
      simp [htl, dictGet_dictSet, dictGet]
    · rw [dictGet_dictSet, if_neg (fun e => hk e.symm)]
      simp only [dictGet, if_neg hk]

/-- Every key of the fold of dict assignments comes from the initial dict or
from the assigned pairs. -/
lemma mem_keys_foldl_dictSet {V : Type} (E : List (String × V)) (m : List (String × V))
    (k : String) (h : k ∈ (E.foldl (fun acc kv => dictSet acc kv.1 kv.2) m).map Prod.fst) :
    k ∈ m.map Prod.fst ∨ k ∈ E.map Prod.fst := by
  induction E generalizing m with
  | nil => exact Or.inl h
  | cons hd tl ih =>
    simp only [List.foldl_cons] at h
    rcases ih (dictSet m hd.1 hd.2) h with h' | h'
    · rcases keys_dictSet m hd.1 hd.2 k h' with h'' | h''
      · exact Or.inl h''
      · right
        simp [h'']
    · right
      simp [h']

/-! Helper lemmas about validation and slicing. -/

/-- When every supplied name is declared, `_check_dim_names` returns
normally. -/
lemma check_dim_names_eq_ok {V M : Type} (c : Cube V M) (names : List String)
    (h : ∀ n ∈ names, n ∈ c.dim_names) : c.check_dim_names names = Except.ok () := by
  induction names with
  | nil => rfl
  | cons hd tl ih =>
    simp only [Cube.check_dim_names]
    rw [if_pos (h hd (by simp))]
    exact ih (fun n hn => h n (by simp [hn]))

/-- When some supplied name is undeclared, `_check_dim_names` raises
`invalid dimension` naming an undeclared dimension. -/
lemma check_dim_names_invalid {V M : Type} (c : Cube V M) (names : List String)
    (n : String) (hn : n ∈ names) (hninv : n ∉ c.dim_names) :
    ∃ m, c.check_dim_names names = Except.error (PyErr.invalidDimension m) ∧
      m ∉ c.dim_names := by
  induction names with
  | nil => simp at hn
  | cons hd tl ih =>
    simp only [Cube.check_dim_names]
    by_cases hhd : hd ∈ c.dim_names
    · rw [if_pos hhd]
      rcases List.mem_cons.mp hn with rfl | htl
      · exact absurd hhd hninv
      · exact ih htl
    · rw [if_neg hhd]
      exact ⟨hd, rfl, hhd⟩

/-- A normal return from `_check_dim_names` means every supplied name is
declared. -/
lemma check_dim_names_ok_mem {V M : Type} (c : Cube V M) (names : List String)
    (h : c.check_dim_names names = Except.ok ()) : ∀ n ∈ names, n ∈ c.dim_names := by
  induction names with
  | nil => simp
  | cons hd tl ih =>
    simp only [Cube.check_dim_names] at h
    by_cases hhd : hd ∈ c.dim_names
    · rw [if_pos hhd] at h
      intro n hn
      rcases List.mem_cons.mp hn with rfl | htl
      · exact hhd
      · exact ih h n htl
    · rw [if_neg hhd] at h
      exact absurd h (by simp)

/-- `slice` after a successful validation: the result is the cube with the
merged constraint dict. -/
lemma slice_eq_of_check_ok {V M : Type} (c : Cube V M) (E : List (String × V))
    (h : c.check_constraint E = Except.ok ()) :
    c.slice E = Except.ok { c with
      _constraint := E.foldl (fun m kv => dictSet m kv.1 kv.2) c._constraint } := by
  simp only [Cube.slice, Cube.check_constraint] at *
  rw [h]
  rfl

/-- `slice` after a failed validation: the error propagates and no cube is
produced. -/
lemma slice_eq_of_check_error {V M : Type} (c : Cube V M) (E : List (String × V))
    (e : PyErr) (h : c.check_constraint E = Except.error e) :
    c.slice E = Except.error e := by
  simp only [Cube.slice, Cube.check_constraint] at *
  rw [h]
  rfl

/-- Shape of a successful `slice`: dims and measures are those of the caller
and the constraint is the merged dict. -/
lemma slice_ok_elim {V M : Type} (c c' : Cube V M) (E : List (String × V))
    (h : c.slice E = Except.ok c') :
    c'.dimensions = c.dimensions ∧ c'.measures = c.measures ∧
    c'.get_sample_space = c.get_sample_space ∧ c'.sort_key = c.sort_key ∧
    c'._constraint = E.foldl (fun m kv => dictSet m kv.1 kv.2) c._constraint ∧
    c.check_constraint E = Except.ok () := by
  cases hc : c.check_constraint E with
  | error e =>
    rw [slice_eq_of_check_error c E e hc] at h
    exact absurd h (by simp)
  | ok u =>
    cases u
    rw [slice_eq_of_check_ok c E hc] at h
    cases h
    exact ⟨rfl, rfl, rfl, rfl, rfl, rfl⟩

/-! Helper lemmas about the Python string order. -/

/-- `lexLeChars` is total. -/
lemma lexLeChars_total : ∀ a b : List Char, lexLeChars a b = true ∨ lexLeChars b a = true
  | [], _ => Or.inl rfl
  | _ :: _, [] => Or.inr rfl
  | a :: as, b :: bs => by
    by_cases hab : a < b
    · left
      simp [lexLeChars, hab]
    · by_cases hba : b < a
      · right
        simp [lexLeChars, hba]
      · rcases lexLeChars_total as bs with h | h
        · left
          simp [lexLeChars, hab, hba, h]
        · right
          simp [lexLeChars, hab, hba, h]

/-- `lexLeChars` is transitive. -/
lemma lexLeChars_trans : ∀ a b c : List Char,
    lexLeChars a b = true → lexLeChars b c = true → lexLeChars a c = true
  | [], _, _, _, _ => rfl
  | x :: xs, [], _, h1, _ => by simp [lexLeChars] at h1
  | _ :: _, _ :: _, [], _, h2 => by simp [lexLeChars] at h2
  | x :: xs, y :: ys, z :: zs, h1, h2 => by
    simp only [lexLeChars] at h1 h2 ⊢
    by_cases hxy : x < y
    · by_cases hyz : y < z
      · simp [lt_trans hxy hyz]
      · by_cases hzy : z < y
        · rw [if_neg hyz, if_pos hzy] at h2
          exact absurd h2 (by simp)
        · have : y = z := le_antisymm (not_lt.mp hzy) (not_lt.mp hyz)
          subst this
          simp [hxy]
    · by_cases hyx : y < x
      · simp [hxy, hyx] at h1
      · have hxy' : x = y := le_antisymm (not_lt.mp hyx) (not_lt.mp hxy)
        subst hxy'
        simp only [if_neg hxy, if_neg hyx] at h1
        by_cases hxz : x < z
        · simp [hxz]
        · by_cases hzx : z < x
          · simp [hxz, hzx] at h2
          · simp only [if_neg hxz, if_neg hzx] at h2 ⊢
            exact lexLeChars_trans xs ys zs h1 h2

/-- Totality of the Python string order, packaged for the sorting lemmas. -/
instance : IsTotal String (fun a b => pyStrLe a b = true) :=
  ⟨fun a b => lexLeChars_total a.data b.data⟩

/-- Transitivity of the Python string order, packaged for the sorting
lemmas. -/
instance : IsTrans String (fun a b => pyStrLe a b = true) :=
  ⟨fun a b c => lexLeChars_trans a.data b.data c.data⟩

/-- `sortStrings` sorts with respect to the Python string order. -/
lemma sorted_sortStrings (xs : List String) :
    (sortStrings xs).Sorted (fun a b => pyStrLe a b = true) :=
  List.sorted_insertionSort (fun a b => pyStrLe a b = true) xs

/-- `sortStrings` permutes its input. -/
lemma perm_sortStrings (xs : List String) : (sortStrings xs).Perm xs :=
  List.perm_insertionSort (fun a b => pyStrLe a b = true) xs

/-! Claim theorems. -/

/-- C1: for every cube `C` and constraint extension `E` whose keys are all
declared dimension names of `C` (distinct, as Python keyword arguments are),
`slice` succeeds and returns a cube whose constraint dict is `C`'s constraint
merged with `E`, `E`'s value winning on every key `E` constrains and all other
keys keeping `C`'s value; the calling cube is a value the call never mutates,
so `C`'s constraint is unchanged. -/
theorem slice_merges_constraint {V M : Type} (c : Cube V M) (E : List (String × V))
    (hkeys : ∀ k ∈ E.map Prod.fst, k ∈ c.dim_names)
    (hnd : (E.map Prod.fst).Nodup) :
    ∃ c' : Cube V M, c.slice E = Except.ok c' ∧
      (∀ k v, dictGet E k = some v → dictGet c'._constraint k = some v) ∧
      (∀ k, dictGet E k = none → dictGet c'._constraint k = dictGet c._constraint k) := by
  have hc : c.check_constraint E = Except.ok () :=
    check_dim_names_eq_ok c (E.map Prod.fst) hkeys
  refine ⟨_, slice_eq_of_check_ok c E hc, ?_, ?_⟩
  · intro k v hkv
    show dictGet (E.foldl (fun m kv => dictSet m kv.1 kv.2) c._constraint) k = some v
    rw [dictGet_foldl_dictSet E hnd c._constraint k, hkv]
  · intro k hk
    show dictGet (E.foldl (fun m kv => dictSet m kv.1 kv.2) c._constraint) k =
      dictGet c._constraint k
    rw [dictGet_foldl_dictSet E hnd c._constraint k, hk]

/-- Witness for C1 at the concrete cube `cubeAB` and extension `a=1`. -/
theorem slice_merges_constraint_witness :
    (∀ k ∈ ([("a", (1 : Nat))].map Prod.fst), k ∈ cubeAB.dim_names) ∧
    (([("a", (1 : Nat))].map Prod.fst).Nodup) ∧
    (∃ c' : Cube Nat Unit, cubeAB.slice [("a", 1)] = Except.ok c' ∧
      (∀ k v, dictGet [("a", 1)] k = some v → dictGet c'._constraint k = some v) ∧
      (∀ k, dictGet [("a", 1)] k = none →
        dictGet c'._constraint k = dictGet cubeAB._constraint k)) :=
  ⟨by decide, by decide,
    slice_merges_constraint cubeAB [("a", 1)] (by decide) (by decide)⟩

/-- C2 (behaviour at the failing input): `cubeFreeA` has the single declared,
unconstrained dimension `a` and a `get_sample_space` hook returning two
entries, yet `iter_slices` on `a` yields no cube at all and raises a
`TypeError` (the self-less `_is_constrained` is called by the filter), instead
of yielding one slice per sample-space entry. -/
theorem iter_slices_free_dim_typeerror :
    cubeFreeA._constraint = [] ∧
    cubeFreeA.get_sample_space ["a"] = Except.ok [[("a", 1)], [("a", 2)]] ∧
    cubeFreeA.iter_slices ["a"] =
      ([], some (PyErr.typeError "_is_constrained() takes exactly 1 argument (2 given)")) :=
  ⟨rfl, rfl, rfl⟩

/-- C3 (behaviour at the failing input): on `cubeConA`, whose only requested
dimension `a` is already constrained, `iter_slices` raises a `TypeError`
instead of yielding exactly one deep copy of the cube. -/
theorem iter_slices_constrained_typeerror :
    cubeConA._constraint = [("a", 1)] ∧
    cubeConA.iter_slices ["a"] =
      ([], some (PyErr.typeError "_is_constrained() takes exactly 1 argument (2 given)")) :=
  ⟨rfl, rfl⟩

/-- C6 (behaviour at the failing input): `cubeUnsorted` has no `sort_key` and
a sample space supplied in the order 2, 1, yet `iter_slices` over its
unconstrained dimension `a` never reaches the sort fallback: it yields nothing
and raises a `TypeError` from the filter step, instead of yielding the slices
in source order. -/
theorem iter_slices_unsorted_typeerror :
    cubeUnsorted.sort_key = none ∧
    cubeUnsorted.get_sample_space ["a"] = Except.ok [[("a", 2)], [("a", 1)]] ∧
    cubeUnsorted.iter_slices ["a"] =
      ([], some (PyErr.typeError "_is_constrained() takes exactly 1 argument (2 given)")) :=
  ⟨rfl, rfl, rfl⟩

/-- C7: `compute` returns one result per declared measure, in declared order,
the i-th being `measures[i].compute(cube)` applied to the calling cube. -/
theorem compute_maps_measures {V M R : Type} (c : Cube V M)
    (computeM : M → Cube V M → R) :
    (c.compute computeM).length = c.measures.length ∧
    ∀ i : Nat, (c.compute computeM)[i]? = (c.measures[i]?).map (fun m => computeM m c) := by
  constructor
  · simp [Cube.compute]
  · intro i
    simp [Cube.compute]

/-- C8 (behaviour at the failing input): `a` is a declared dimension of
`cubeAB`, yet `measures_list('a')` raises `ValueError('invalid dimension a')`
(`_pop_first_dim` tests the name against the list of `Dimension` objects
instead of the dimension names) rather than producing a nested list of
measure values. -/
theorem measures_list_valid_dim_valueerror :
    "a" ∈ cubeAB.dim_names ∧
    (cubeAB.measures_list ["a"] : Except PyErr (MeasTree Nat)) =
      Except.error (PyErr.invalidDimension "a") :=
  ⟨by decide, by simp [Cube.measures_list, Cube.pop_first_dim, pyEqStrDim]⟩

/-- C4: every cube reachable from a freshly constructed root by successful
`slice` calls keeps every constraint key among its declared dimension names
and carries the root's dimensions and measures; the root itself starts with an
empty constraint. -/
theorem sliceReachable_invariant {V M : Type} (measures : List M)
    (dims : List (Dimension V))
    (gss : List String → Except PyErr (List (List (String × V))))
    (sk : Option (List (String × V) → Except PyErr Int))
    (c : Cube V M) (h : SliceReachable (Cube.init measures dims gss sk) c) :
    (∀ k ∈ c._constraint.map Prod.fst, k ∈ c.dim_names) ∧
    c.dimensions = dims ∧ c.measures = measures ∧
    (Cube.init measures dims gss sk)._constraint = ([] : List (String × V)) := by
  induction h with
  | refl => exact ⟨by simp [Cube.init], rfl, rfl, rfl⟩
  | @step c₀ c₁ E₀ hr hs ih =>
    obtain ⟨hdims, hmeas, _, _, hconstr, hcheck⟩ := slice_ok_elim _ _ _ hs
    have hnames : ∀ n ∈ E₀.map Prod.fst, n ∈ c₀.dim_names :=
      check_dim_names_ok_mem _ _ hcheck
    refine ⟨?_, by rw [hdims, ih.2.1], by rw [hmeas, ih.2.2.1], rfl⟩
    intro k hk
    rw [hconstr] at hk
    have hdn : c₁.dim_names = c₀.dim_names := by
      simp [Cube.dim_names, hdims]
    rw [hdn]
    rcases mem_keys_foldl_dictSet _ _ k hk with h' | h'
    · exact ih.1 k h'
    · exact hnames k h'

/-- Witness for C4: the cube sliced once from the fresh root `cubeAB`. -/
theorem sliceReachable_invariant_witness :
    (∀ k ∈ cubeAB_a1._constraint.map Prod.fst, k ∈ cubeAB_a1.dim_names) ∧
    cubeAB_a1.dimensions = [⟨"a", []⟩, ⟨"b", []⟩] ∧
    cubeAB_a1.measures = ([] : List Unit) ∧
    (Cube.init [] [⟨"a", []⟩, ⟨"b", []⟩] gssEmpty none : Cube Nat Unit)._constraint = [] :=
  sliceReachable_invariant [] [⟨"a", []⟩, ⟨"b", []⟩] gssEmpty none cubeAB_a1
    (SliceReachable.step SliceReachable.refl
      (show cubeAB.slice [("a", 1)] = Except.ok cubeAB_a1 from rfl))

/-- C5: slicing on an undeclared name and iterating on an undeclared name both
fail with the `invalid dimension` error (naming an undeclared dimension);
when every supplied name is declared, `slice` succeeds and `iter_slices` never
ends with that error. -/
theorem invalid_dimension_errors {V M : Type} (c : Cube V M) :
    (∀ (E : List (String × V)) (n : String), n ∈ E.map Prod.fst → n ∉ c.dim_names →
      ∃ m, c.slice E = Except.error (PyErr.invalidDimension m) ∧ m ∉ c.dim_names) ∧
    (∀ (names : List String) (n : String), n ∈ names → n ∉ c.dim_names →
      ∃ m, c.iter_slices names = ([], some (PyErr.invalidDimension m)) ∧
        m ∉ c.dim_names) ∧
    (∀ E : List (String × V), (∀ k ∈ E.map Prod.fst, k ∈ c.dim_names) →
      ∃ c', c.slice E = Except.ok c') ∧
    (∀ names : List String, (∀ n ∈ names, n ∈ c.dim_names) →
      ∀ e, (c.iter_slices names).2 = some e → e.isInvalidDim = false) := by
  refine ⟨?_, ?_, ?_, ?_⟩
  · intro E n hn hninv
    obtain ⟨m, hm, hmnot⟩ := check_dim_names_invalid c (E.map Prod.fst) n hn hninv
    exact ⟨m, slice_eq_of_check_error c E _ hm, hmnot⟩
  · intro names n hn hninv
    obtain ⟨m, hm, hmnot⟩ := check_dim_names_invalid c names n hn hninv
    refine ⟨m, ?_, hmnot⟩
    unfold Cube.iter_slices
    rw [hm]
  · intro E hE
    exact ⟨_, slice_eq_of_check_ok c E (check_dim_names_eq_ok c (E.map Prod.fst) hE)⟩
  · intro names hnames e he
    have hchk := check_dim_names_eq_ok c names hnames
    cases names with
    | nil =>
      have he' : (none : Option PyErr) = some e := he
      exact absurd he' (by simp)
    | cons hd tl =>
      unfold Cube.iter_slices at he
      rw [hchk] at he
      have he' :
          some (PyErr.typeError "_is_constrained() takes exactly 1 argument (2 given)") =
            some e := he
      cases he'
      rfl

/-- Witness for C5 at the concrete cube `cubeAB`, a bogus name, and a valid
name. -/
theorem invalid_dimension_errors_witness :
    (∃ m, cubeAB.slice [("bogus", (1 : Nat))] =
        Except.error (PyErr.invalidDimension m) ∧ m ∉ cubeAB.dim_names) ∧
    (∃ m, cubeAB.iter_slices ["bogus"] = ([], some (PyErr.invalidDimension m)) ∧
        m ∉ cubeAB.dim_names) ∧
    (∃ c', cubeAB.slice [("a", (1 : Nat))] = Except.ok c') ∧
    (∀ e, (cubeAB.iter_slices ["a"]).2 = some e → e.isInvalidDim = false) :=
  ⟨(invalid_dimension_errors cubeAB).1 [("bogus", 1)] "bogus" (by decide) (by decide),
   (invalid_dimension_errors cubeAB).2.1 ["bogus"] "bogus" (by decide) (by decide),
   (invalid_dimension_errors cubeAB).2.2.1 [("a", 1)] (by decide),
   (invalid_dimension_errors cubeAB).2.2.2 ["a"] (by decide)⟩

/-- C9: the canonical string form of a cube lists the free dimension names
sorted in the Python string order, then the `name=value` strings of the
constrained dimensions, also sorted, in the fixed `Cube(...)` format; in
particular the cube with dimensions `a`, `b`, `c` and constraint `b=2`
renders as `Cube(a, c, b=2)`. -/
theorem repr_free_then_constrained {V M : Type} (c : Cube V M) (toStr : V → String) :
    ∃ free constr : List String,
      c.repr toStr = "Cube(" ++ String.intercalate ", " (free ++ constr) ++ ")" ∧
      free.Sorted (fun a b => pyStrLe a b = true) ∧
      constr.Sorted (fun a b => pyStrLe a b = true) ∧
      (∀ s, s ∈ free ↔ s ∈ c.dim_names ∧ s ∉ c._constraint.map Prod.fst) ∧
      constr.Perm (c._constraint.map (fun p => p.1 ++ "=" ++ toStr p.2)) ∧
      cubeABC_b2.repr (fun v => toString v) = "Cube(a, c, b=2)" := by
  have hconc : cubeABC_b2.repr (fun v => toString v) = "Cube(a, c, b=2)" := rfl
  have h1 : c.repr toStr = "Cube(" ++ String.intercalate ", "
      (sortStrings ((c.dim_names.filter
        (fun d => !decide (d ∈ c._constraint.map Prod.fst))).dedup) ++
       sortStrings (c._constraint.map (fun p => p.1 ++ "=" ++ toStr p.2))) ++ ")" := rfl
  have h4 : ∀ s, s ∈ sortStrings ((c.dim_names.filter
      (fun d => !decide (d ∈ c._constraint.map Prod.fst))).dedup) ↔
      s ∈ c.dim_names ∧ s ∉ c._constraint.map Prod.fst := by
    intro s
    rw [(perm_sortStrings _).mem_iff]
    simp [List.mem_dedup, List.mem_filter]
  exact Exists.intro _ (Exists.intro _
    ⟨h1, sorted_sortStrings _, sorted_sortStrings _, h4, perm_sortStrings _, hconc⟩)

/-- C10: a `slice` call whose extension contains any undeclared key fails at
validation with the `invalid dimension` error before any copy or merge: the
error returned by `slice` is exactly the validation error, no cube is
produced, and (the embedding being functional) the calling cube is untouched,
so no part of the extension is applied anywhere. -/
theorem slice_invalid_key_atomic {V M : Type} (c : Cube V M) (E : List (String × V))
    (n : String) (hn : n ∈ E.map Prod.fst) (hninv : n ∉ c.dim_names) :
    ∃ m, c.check_constraint E = Except.error (PyErr.invalidDimension m) ∧
      c.slice E = Except.error (PyErr.invalidDimension m) ∧
      m ∉ c.dim_names ∧ ∀ c', c.slice E ≠ Except.ok c' := by
  obtain ⟨m, hm, hmnot⟩ := check_dim_names_invalid c (E.map Prod.fst) n hn hninv
  have hs := slice_eq_of_check_error c E _ hm
  refine ⟨m, hm, hs, hmnot, ?_⟩
  intro c' hc'
  rw [hs] at hc'
  exact absurd hc' (by simp)

/-- Witness for C10 at the concrete cube `cubeAB` and an extension mixing a
valid and an invalid key. -/
theorem slice_invalid_key_atomic_witness :
    ∃ m, cubeAB.check_constraint [("a", (1 : Nat)), ("zzz", 2)] =
        Except.error (PyErr.invalidDimension m) ∧
      cubeAB.slice [("a", 1), ("zzz", 2)] = Except.error (PyErr.invalidDimension m) ∧
      m ∉ cubeAB.dim_names ∧
      ∀ c', cubeAB.slice [("a", 1), ("zzz", 2)] ≠ Except.ok c' :=
  slice_invalid_key_atomic cubeAB [("a", 1), ("zzz", 2)] "zzz" (by decide) (by decide)
